/-
Verification of the debot measurement-search backend.

Shallow embedding of:
  * src/backend/parser.py   — MeasurementParser (to_inches, extract_tops, within)
  * src/backend/main.py     — filter_tops, the SSE streaming generator at
                              /api/search/stream, the CANCEL_FLAGS registry and
                              the /api/search/cancel endpoint
  * src/backend/scraper.py  — parse_listing's soldCount field (record shape)

Modelling conventions:
  * Python floats are modelled as exact rationals (ℚ); 2.54 denotes 254/100.
  * A Python function that can raise an uncaught exception is modelled with an
    Option result; `none` means "raised".
  * The regular expressions of parser.py are modelled by hand-written scanners
    that follow Python `re` semantics (leftmost match, ordered alternation,
    greedy quantifiers with the backtracking that these particular patterns
    can actually exercise).  The patterns are only ever applied to text that
    extract_tops has already lower-cased, so the scanners assume lower-case
    input (the source compiles them with re.I).
  * Python str.lower is modelled on ASCII letters, str.strip / \s on ASCII
    whitespace; the texts in scope use only those.
-/
import Mathlib

set_option linter.unusedVariables false

/-! ### Kernel-computable rational arithmetic

The Batteries field operations on `Rat` (`Rat.add`, `Rat.mul`, `Rat.div`, …)
are `@[irreducible]`, so concrete runs of the model could not be checked by
`decide` through them.  `Rat.divInt` is reducible, so the model uses the
following wrappers, each provably equal to the corresponding field operation
(`qAdd_eq`, `qMul_eq`, `qDiv_eq`, `qSub_eq`, `qAbs_eq`); theorems about the
model are stated with the ordinary operations via these equations. -/
/-- `a / b` on ℚ, kernel-computable.  Equals `a / b` by `qDiv_eq`. -/
def qDiv (a b : ℚ) : ℚ := Rat.divInt (a.num * b.den) (a.den * b.num)

/-- `a * b` on ℚ, kernel-computable.  Equals `a * b` by `qMul_eq`. -/
def qMul (a b : ℚ) : ℚ := Rat.divInt (a.num * b.num) ((a.den : Int) * (b.den : Int))

/-- `a + b` on ℚ, kernel-computable.  Equals `a + b` by `qAdd_eq`. -/
def qAdd (a b : ℚ) : ℚ :=
  Rat.divInt (a.num * b.den + b.num * a.den) ((a.den : Int) * (b.den : Int))

/-- `a - b` on ℚ, kernel-computable.  Equals `a - b` by `qSub_eq`. -/
def qSub (a b : ℚ) : ℚ := qAdd a (-b)

/-- `|a|` on ℚ, kernel-computable.  Equals `|a|` by `qAbs_eq`. -/
def qAbs (a : ℚ) : ℚ := if a.num < 0 then -a else a

/-- Boolean `a < b` on ℚ (the core order on `Rat` is defined from `Rat.blt`). -/
def qLt (a b : ℚ) : Bool := Rat.blt a b

/-- Boolean `a ≤ b` on ℚ. -/
def qLe (a b : ℚ) : Bool := !Rat.blt b a

/-! ### Character classes (ASCII fragments of the Python semantics) -/
/-- `[0-9]`, i.e. `\d` for the ASCII inputs in scope. -/
def isDigitChar (c : Char) : Bool := '0' ≤ c && c ≤ '9'

/-- Python `\s` / `str.split(None)` whitespace, restricted to ASCII. -/
def isSpaceChar (c : Char) : Bool :=
  c = ' ' || c = '\t' || c = '\n' || c = '\r' || c = '\x0b' || c = '\x0c'

/-- Regex word character `\w` (ASCII): letters, digits, underscore. -/
def isWordChar (c : Char) : Bool :=
  isDigitChar c || ('a' ≤ c && c ≤ 'z') || ('A' ≤ c && c ≤ 'Z') || c = '_'

/-- ASCII `str.lower`. -/
def asciiLower (c : Char) : Char :=
  if 'A' ≤ c && c ≤ 'Z' then Char.ofNat (c.toNat + 32) else c

/-- The normalization `lower().replace("”", '"').replace("″", '"')` applied
by `extract_tops` to its input text, per character. -/
def normChar (c : Char) : Char :=
  let c := asciiLower c
  if c = '”' || c = '″' then '"' else c

/-- `str.strip()` on ASCII whitespace. -/
def stripChars (cs : List Char) : List Char :=
  ((cs.dropWhile isSpaceChar).reverse.dropWhile isSpaceChar).reverse

/-- Match a literal string, returning the remainder on success. -/
def stripLit : List Char → List Char → Option (List Char)
  | [], cs => some cs
  | _ :: _, [] => none
  | p :: ps, c :: cs => if c = p then stripLit ps cs else none

/-- Greedy `\s*`. -/
def skipWs (cs : List Char) : List Char := cs.dropWhile isSpaceChar

/-- Leading digit run and the remainder. -/
def takeDigits (cs : List Char) : List Char × List Char :=
  (cs.takeWhile isDigitChar, cs.dropWhile isDigitChar)

/-! ### Python numeric literals

`to_inches` calls `float(s)` and `Fraction(s)`.  Both are modelled over ℚ,
with `none` for the exceptions they can raise (ValueError on a malformed
literal, ZeroDivisionError on `Fraction` with denominator 0).  `float` is
modelled on decimal literals (optional sign, digits, optional fractional
part, optional exponent); `inf`/`nan`/underscore separators are outside the
inputs in scope and are treated as malformed. -/
/-- Digit run to a natural number. -/
def digitsToNat (cs : List Char) : Nat :=
  cs.foldl (fun n c => 10 * n + (c.toNat - '0'.toNat)) 0

/-- Optional `e`/`E` exponent suffix of a Python float literal.  Returns the
exponent (0 when absent) or `none` when the tail is malformed. -/
def parseExpPart (cs : List Char) : Option Int :=
  match cs with
  | [] => some 0
  | 'e' :: rest =>
      let (sgn, rest) :=
        match rest with
        | '-' :: r => (true, r)
        | '+' :: r => (false, r)
        | r => (false, r)
      let (d, r) := takeDigits rest
      if d = [] || r ≠ [] then none
      else some (if sgn then -(digitsToNat d : Int) else (digitsToNat d : Int))
  | _ => none

/-- Scale a rational by a power of ten. -/
def scalePow10 (q : ℚ) (e : Int) : ℚ :=
  if 0 ≤ e then qMul q ((10 ^ e.toNat : Nat) : ℚ) else qDiv q ((10 ^ (-e).toNat : Nat) : ℚ)

/-- Unsigned part of a Python float literal: `digits[.digits][exp]` or
`.digits[exp]`. -/
def parseUnsignedFloat (cs : List Char) : Option ℚ :=
  let d1 := (takeDigits cs).1
  match (takeDigits cs).2 with
  | '.' :: r2 =>
      let d2 := (takeDigits r2).1
      if d1 = [] && d2 = [] then none
      else
        match parseExpPart (takeDigits r2).2 with
        | none => none
        | some e =>
            some (scalePow10
              (qAdd (digitsToNat d1 : ℚ) (qDiv (digitsToNat d2 : ℚ) ((10 ^ d2.length : Nat) : ℚ))) e)
  | r1 =>
      if d1 = [] then none
      else
        match parseExpPart r1 with
        | none => none
        | some e => some (scalePow10 (digitsToNat d1 : ℚ) e)

/-- Python `float(s)`: strip, optional sign, decimal literal. -/
def parsePyFloat (cs : List Char) : Option ℚ :=
  match stripChars cs with
  | '-' :: rest => (parseUnsignedFloat rest).map (fun q => -q)
  | '+' :: rest => parseUnsignedFloat rest
  | rest => parseUnsignedFloat rest

/-- Unsigned part of `Fraction(s)`: `digits` or `digits/digits`, denominator
0 modelling ZeroDivisionError. -/
def parseFracCore (cs : List Char) : Option ℚ :=
  let d1 := (takeDigits cs).1
  if d1 = [] then none
  else
    match (takeDigits cs).2 with
    | '/' :: r2 =>
        if (takeDigits r2).1 = [] || (takeDigits r2).2 ≠ [] then none
        else if digitsToNat (takeDigits r2).1 = 0 then none
        else some (qDiv (digitsToNat d1 : ℚ) (digitsToNat (takeDigits r2).1 : ℚ))
    | [] => some (digitsToNat d1 : ℚ)
    | _ => none

/-- Python `Fraction(s)` for the `numerator/denominator` string form (the only
form that reaches it in `to_inches`, whose branch requires a `/` in `s`):
optional sign, digits, `/`, digits.  Denominator 0 (ZeroDivisionError) and
malformed strings (ValueError) both model as `none`. -/
def parsePyFraction (cs : List Char) : Option ℚ :=
  match stripChars cs with
  | '-' :: rest => (parseFracCore rest).map (fun q => -q)
  | '+' :: rest => parseFracCore rest
  | rest => parseFracCore rest

/-! ### to_inches (parser.py lines 26–40) -/
/-- The `”`/`″` → `"` replacement `to_inches` applies to its number string. -/
def quoteNorm (c : Char) : Char := if c = '”' || c = '″' then '"' else c

/-- `(unit_str or "").lower().strip().startswith("cm")`. -/
def unitIsCm (u : List Char) : Bool :=
  match stripChars (u.map asciiLower) with
  | 'c' :: 'm' :: _ => true
  | _ => false

/-- Numeric part of `to_inches`: mixed fraction `a b/c`, plain fraction, or
float literal, exactly following the source's three branches. -/
def toInchesNum (s : List Char) : Option ℚ :=
  if s.contains ' ' && s.contains '/' then
    -- a, b = s.split(None, 1); float(a) + float(Fraction(b))
    let a := s.takeWhile (fun c => !isSpaceChar c)
    let b := (s.dropWhile (fun c => !isSpaceChar c)).dropWhile isSpaceChar
    match parsePyFloat a, parsePyFraction b with
    | some x, some y => some (qAdd x y)
    | _, _ => none
  else if s.contains '/' then parsePyFraction s
  else parsePyFloat s

/-- The source's conversion constant `2.54` (cm per inch); `cmPerInch_eq`
identifies it with the scientific literal. -/
def cmPerInch : ℚ := mkRat 254 100

/-- `MeasurementParser.to_inches` on character lists.  `none` models a raised
exception (ValueError / ZeroDivisionError). -/
def toInchesL (numStr unitStr : List Char) : Option ℚ :=
  match toInchesNum (stripChars (numStr.map quoteNorm)) with
  | none => none
  | some v => some (if unitIsCm unitStr then qDiv v cmPerInch else v)

/-- `MeasurementParser.to_inches`. -/
def to_inches (numStr unitStr : String) : Option ℚ :=
  toInchesL numStr.toList unitStr.toList

/-! ### Model of the compiled patterns of parser.py

`RE_P2P`, `RE_LENGTH`, `RE_PAIR_X` and the two fallback patterns are modelled
by hand-written scanners with Python `re` semantics: leftmost match, ordered
alternation, greedy quantifiers.  `extract_tops` lower-cases its text before
matching, so the scanners assume lower-case input (the patterns carry re.I).
Backtracking is implemented exactly where these patterns can exercise it:
the optional unit and fractional-part groups of `RE_PAIR_X`, whose trailing
`\b` can reject the greedy choice, enumerate their candidates in Python
order; in `RE_P2P`/`RE_LENGTH` nothing follows the optional groups, so the
greedy first choice is final. -/
/-- Try `f` on each element in order, returning the first success. -/
def firstSome {α β : Type} : List α → (α → Option β) → Option β
  | [], _ => none
  | a :: rest, f => match f a with | some b => some b | none => firstSome rest f

/-- The word alternatives of the `UNIT` group, in the pattern's alternation
order `cm|mm|in|inch|inches`. -/
def unitWords : List (List Char) :=
  ["cm".toList, "mm".toList, "in".toList, "inch".toList, "inches".toList]

/-- The quote-glyph alternative `["″]` of the `UNIT` group. -/
def matchUnitQuote (cs : List Char) : Option (List Char × List Char) :=
  match cs with
  | c :: rest => if c = '"' || c = '″' then some ([c], rest) else none
  | [] => none

/-- First alternative of `(cm|mm|in|inch|inches|["″])` that matches. -/
def matchUnitCore (cs : List Char) : Option (List Char × List Char) :=
  match firstSome unitWords (fun w => (stripLit w cs).map (fun r => (w, r))) with
  | some u => some u
  | none => matchUnitQuote cs

/-- The optional group `(\s*(?:cm|mm|in|inch|inches|["″]))?` at the end of
`RE_P2P`/`RE_LENGTH`: greedy, first alternative wins, empty when none match
(nothing follows the group, so no backtracking arises). -/
def matchUnitFirst (cs : List Char) : List Char × List Char :=
  let ws := cs.takeWhile isSpaceChar
  let r := cs.dropWhile isSpaceChar
  match matchUnitCore r with
  | some (u, rest) => (ws ++ u, rest)
  | none => ([], cs)

/-- All candidates of the optional unit group in Python backtracking order
(greedy alternatives first, then the empty match), for the positions of
`RE_PAIR_X` where the trailing `\b` may reject the greedy choice. -/
def unitCandidates (cs : List Char) : List (List Char × List Char) :=
  let ws := cs.takeWhile isSpaceChar
  let r := cs.dropWhile isSpaceChar
  (unitWords.filterMap (fun w => (stripLit w r).map (fun rest => (ws ++ w, rest)))) ++
    (match matchUnitQuote r with
     | some (u, rest) => [(ws ++ u, rest)]
     | none => []) ++
    [([], cs)]

/-- `\s*[- ]?` followed by the literal `w` (used inside the pit-to-pit label
alternatives).  The alternation between taking and skipping the optional
`[- ]?` cannot overlap because `w` starts with a letter. -/
def matchWsOptDashThen (w : List Char) (cs : List Char) : Option (List Char) :=
  let cs1 := skipWs cs
  match stripLit w cs1 with
  | some r => some r
  | none =>
      match cs1 with
      | '-' :: cs2 => stripLit w cs2
      | _ => none

/-- `[- ]?` followed by the literal `w` (greedy: consume the dash/space
first when possible). -/
def matchOptDashThen (w : List Char) (cs : List Char) : Option (List Char) :=
  match cs with
  | c :: cs2 =>
      if c = '-' || c = ' ' then
        match stripLit w cs2 with
        | some r => some r
        | none => stripLit w cs
      else stripLit w cs
  | [] => none

/-- `P2P_LABELS`: ordered alternation
`p2p|pit\s*[- ]?to\s*[- ]?pit|pit[- ]?to[- ]?pit|pit\s*to\s*pit|chest|width|across\s*chest`. -/
def matchP2PLabel (cs : List Char) : Option (List Char) :=
  match stripLit "p2p".toList cs with
  | some r => some r
  | none =>
  match (stripLit "pit".toList cs).bind (fun r =>
          (matchWsOptDashThen "to".toList r).bind (matchWsOptDashThen "pit".toList)) with
  | some r => some r
  | none =>
  match (stripLit "pit".toList cs).bind (fun r =>
          (matchOptDashThen "to".toList r).bind (matchOptDashThen "pit".toList)) with
  | some r => some r
  | none =>
  match (stripLit "pit".toList cs).bind (fun r =>
          (stripLit "to".toList (skipWs r)).bind (fun r2 => stripLit "pit".toList (skipWs r2))) with
  | some r => some r
  | none =>
  match stripLit "chest".toList cs with
  | some r => some r
  | none =>
  match stripLit "width".toList cs with
  | some r => some r
  | none =>
      (stripLit "across".toList cs).bind (fun r => stripLit "chest".toList (skipWs r))

/-- `LENGTH_LABELS`: `length|top\s*to\s*bottom|back\s*length|hps\s*to\s*hem`. -/
def matchLenLabel (cs : List Char) : Option (List Char) :=
  match stripLit "length".toList cs with
  | some r => some r
  | none =>
  match (stripLit "top".toList cs).bind (fun r =>
          (stripLit "to".toList (skipWs r)).bind (fun r2 => stripLit "bottom".toList (skipWs r2))) with
  | some r => some r
  | none =>
  match (stripLit "back".toList cs).bind (fun r => stripLit "length".toList (skipWs r)) with
  | some r => some r
  | none =>
      (stripLit "hps".toList cs).bind (fun r =>
        (stripLit "to".toList (skipWs r)).bind (fun r2 => stripLit "hem".toList (skipWs r2)))

/-- The `\b` after a label: every label ends in a word character, so the
boundary holds iff the text ends or continues with a non-word character. -/
def wordBoundaryAfter (rest : List Char) : Bool :=
  match rest with
  | [] => true
  | c :: _ => !isWordChar c

/-- `[^0-9]{0,10}` followed by a digit: skip at most 10 non-digits up to the
first digit (the quantifier is greedy, but `NUM` must start with a digit, so
the first digit within reach is the only viable stop). -/
def skipNonDigits : Nat → List Char → Option (List Char)
  | _, [] => none
  | fuel, c :: cs =>
      if isDigitChar c then some (c :: cs)
      else
        match fuel with
        | 0 => none
        | f + 1 => skipNonDigits f cs

/-- The greedy optional group `(\.\d+)?` of `NUM`. -/
def matchNumFrac (r1 : List Char) : List Char × List Char :=
  match r1 with
  | '.' :: rest =>
      if (takeDigits rest).1 = [] then (([] : List Char), r1)
      else ('.' :: (takeDigits rest).1, (takeDigits rest).2)
  | _ => (([] : List Char), r1)

/-- The greedy optional group `(\s+\d\/\d)?` of `NUM`. -/
def matchNumMixed (r2 : List Char) : List Char × List Char :=
  let ws := r2.takeWhile isSpaceChar
  match r2.dropWhile isSpaceChar with
  | a :: '/' :: b :: rest =>
      if ws ≠ [] && isDigitChar a && isDigitChar b then (ws ++ [a, '/', b], rest)
      else (([] : List Char), r2)
  | _ => (([] : List Char), r2)

/-- `NUM` = `(?P<val>\d+(?:\.\d+)?(?:\s+\d\/\d)?)`, greedy (final, since the
only following group is optional).  Returns the `val` capture and the rest. -/
def matchNum (cs : List Char) : Option (List Char × List Char) :=
  let d1 := (takeDigits cs).1
  if d1 = [] then none
  else
    let fr := matchNumFrac (takeDigits cs).2
    let mx := matchNumMixed fr.2
    some (d1 ++ fr.1 ++ mx.1, mx.2)

/-- One attempt of `RE_P2P`/`RE_LENGTH` at the current position (the driver
has already checked the `\b` in front).  Returns the `(val, unit)` captures,
the last matched character, and the rest of the text. -/
def matchLabeledAt (labelM : List Char → Option (List Char)) (cs : List Char) :
    Option ((List Char × List Char) × Char × List Char) :=
  match labelM cs with
  | none => none
  | some r1 =>
      if wordBoundaryAfter r1 then
        match skipNonDigits 10 r1 with
        | none => none
        | some r2 =>
            match matchNum r2 with
            | none => none
            | some vr =>
                let u := matchUnitFirst vr.2
                some ((vr.1, u.1), (vr.1 ++ u.1).getLastD 'x', u.2)
      else none

/-- The leading `\b` of the patterns: all start with a word character, so the
boundary holds iff the previous character is absent or non-word. -/
def boundaryOkPrev : Option Char → Bool
  | none => true
  | some p => !isWordChar p

/-- `finditer`: scan start positions left to right; after a match continue at
its end (with `prev` tracking the character before the current position for
the leading `\b`).  The fuel starts at the text length; every step consumes
at least one character. -/
def scanAll {α : Type} (matchAt : List Char → Option (α × Char × List Char)) :
    Nat → Option Char → List Char → List α
  | 0, _, _ => []
  | _ + 1, _, [] => []
  | fuel + 1, prev, c :: rest =>
      match boundaryOkPrev prev, matchAt (c :: rest) with
      | true, some (a, lastC, r) => a :: scanAll matchAt fuel (some lastC) r
      | _, _ => scanAll matchAt fuel (some c) rest

/-- A match of `RE_PAIR_X`: the four captures `w`, `u1`, `l`, `u2`. -/
structure PairMatch where
  w : List Char
  u1 : List Char
  l : List Char
  u2 : List Char
deriving Repr, DecidableEq

/-- Candidates of `\d+(\.\d+)?` in Python backtracking order: the greedy
match first, then (when a fractional part was taken) the integer-only
fallback.  Giving back bare digits can never help (`\b` never holds between
two digits), so these are all the viable candidates. -/
def numCandidates (cs : List Char) : List (List Char × List Char) :=
  let d1 := (takeDigits cs).1
  if d1 = [] then []
  else
    match (takeDigits cs).2 with
    | '.' :: rest =>
        if (takeDigits rest).1 = [] then [(d1, (takeDigits cs).2)]
        else [(d1 ++ '.' :: (takeDigits rest).1, (takeDigits rest).2), (d1, (takeDigits cs).2)]
    | _ => [(d1, (takeDigits cs).2)]

/-- The trailing `\b` of `RE_PAIR_X`, between the last matched character and
the rest of the text. -/
def boundaryAfterPair (lastC : Char) (rest : List Char) : Bool :=
  match rest with
  | [] => isWordChar lastC
  | c :: _ => isWordChar lastC != isWordChar c

/-- One attempt of `RE_PAIR_X` at the current position:
`\b \d+(\.\d+)? UNIT? \s*[x×]\s* \d+(\.\d+)? UNIT? \b` with backtracking over
the optional groups in Python order. -/
def matchPairAt (cs : List Char) : Option (PairMatch × Char × List Char) :=
  firstSome (numCandidates cs) (fun wc =>
    firstSome (unitCandidates wc.2) (fun u1c =>
      match skipWs u1c.2 with
      | c :: r3 =>
          if c = 'x' || c = '×' then
            firstSome (numCandidates (skipWs r3)) (fun lc =>
              firstSome (unitCandidates lc.2) (fun u2c =>
                let lastC := (lc.1 ++ u2c.1).getLastD 'x'
                if boundaryAfterPair lastC u2c.2 then
                  some (⟨wc.1, u1c.1, lc.1, u2c.1⟩, lastC, u2c.2)
                else none))
          else none
      | [] => none))

/-! ### extract_tops (parser.py lines 42–83) -/
/-- `t = (text or "").lower().replace("”", '"').replace("″", '"')`. -/
def normalizeText (s : String) : List Char := s.toList.map normChar

/-- All `(val, unit)` captures of a labeled pattern, in document order. -/
def labeledMatches (labelM : List Char → Option (List Char)) (t : List Char) :
    List (List Char × List Char) :=
  scanAll (matchLabeledAt labelM) t.length none t

/-- All `RE_PAIR_X` matches, in document order. -/
def pairMatches (t : List Char) : List PairMatch :=
  scanAll matchPairAt t.length none t

/-- `[self.to_inches(m.group("val"), m.group("unit") or "") for m in …]`:
an exception in any element aborts the whole comprehension (`none`). -/
def mapToInches : List (List Char × List Char) → Option (List ℚ)
  | [] => some []
  | vu :: rest =>
      match toInchesL vu.1 vu.2, mapToInches rest with
      | some q, some qs => some (q :: qs)
      | _, _ => none

/-- The `RE_PAIR_X` loop of `extract_tops`: convert both sides (units may
differ per side), swap so the smaller value is first (`if l < w: w, l = l, w`).
An exception in `to_inches` aborts `extract_tops` (the loop has no
try/except). -/
def pairValsList : List PairMatch → Option (List (ℚ × ℚ))
  | [] => some []
  | pm :: rest =>
      match toInchesL pm.w pm.u1, toInchesL pm.l pm.u2 with
      | some w, some lv =>
          match pairValsList rest with
          | some ps => some ((if qLt lv w then (lv, w) else (w, lv)) :: ps)
          | none => none
      | _, _ => none

/-- Python `str.splitlines` line-break characters (ASCII; the rarer Unicode
breaks do not occur in the texts in scope). -/
def isLineBreak (c : Char) : Bool := c = '\n' || c = '\r' || c = '\x0b' || c = '\x0c'

/-- `t.splitlines()`: no trailing empty line, `\r\n` counts as one break. -/
def splitLinesAux : List Char → List Char → List (List Char)
  | acc, [] => if acc = [] then [] else [acc.reverse]
  | acc, '\r' :: '\n' :: rest => acc.reverse :: splitLinesAux [] rest
  | acc, c :: rest =>
      if isLineBreak c then acc.reverse :: splitLinesAux [] rest
      else splitLinesAux (c :: acc) rest

def splitLines (t : List Char) : List (List Char) := splitLinesAux [] t

/-- One attempt of the loose fallback pattern `\b LBL \b .*? NUM UNIT` at the
current position: the lazy `.*?` stops at the first digit of the line (no
10-character bound). -/
def matchSimpleAt (labelM : List Char → Option (List Char)) (cs : List Char) :
    Option ((List Char × List Char) × Char × List Char) :=
  match labelM cs with
  | none => none
  | some r1 =>
      if wordBoundaryAfter r1 then
        let r2 := r1.dropWhile (fun c => !isDigitChar c)
        if r2 = [] then none
        else
          match matchNum r2 with
          | none => none
          | some vr =>
              let u := matchUnitFirst vr.2
              some ((vr.1, u.1), (vr.1 ++ u.1).getLastD 'x', u.2)
      else none

/-- `re.search` of the loose fallback pattern on one line: its first match. -/
def searchSimple (labelM : List Char → Option (List Char)) (line : List Char) :
    Option (List Char × List Char) :=
  (scanAll (matchSimpleAt labelM) line.length none line).head?

/-- One dimension's per-line fallback step: keep an already-found value;
otherwise search the line, converting with `to_inches` under `try/except` —
`toInchesL`'s `none` (a caught exception) leaves the value absent. -/
def fallbackTry (labelM : List Char → Option (List Char)) (cur : Option ℚ)
    (line : List Char) : Option ℚ :=
  match cur with
  | some q => some q
  | none =>
      match searchSimple labelM line with
      | some vu => toInchesL vu.1 vu.2
      | none => none

/-- The line-by-line fallback loop of `extract_tops`: only fills dimensions
that are still absent; a `to_inches` exception is caught (`except: pass`), so
the value simply stays absent for that line; stop at the first line after
which both are resolved. -/
def fallbackLoop : List (List Char) → Option ℚ → Option ℚ → Option ℚ × Option ℚ
  | [], p2p, len => (p2p, len)
  | line :: rest, p2p, len =>
      let p2p' := fallbackTry matchP2PLabel p2p line
      let len' := fallbackTry matchLenLabel len line
      if p2p'.isSome && len'.isSome then (p2p', len')
      else fallbackLoop rest p2p' len'

/-- `MeasurementParser.extract_tops`.  The outer `none` models an uncaught
exception (possible only in the labeled-scan comprehensions and the pair
loop, which have no try/except); `some (p2p, length)` is the returned pair. -/
def extract_tops (text : String) : Option (Option ℚ × Option ℚ) :=
  let t := normalizeText text
  match mapToInches (labeledMatches matchP2PLabel t),
        mapToInches (labeledMatches matchLenLabel t),
        pairValsList (pairMatches t) with
  | some p2pVals0, some lenVals0, some pairs =>
      let p2pVals := p2pVals0 ++ pairs.map Prod.fst
      let lenVals := lenVals0 ++ pairs.map Prod.snd
      let p2p := p2pVals.head?
      let len := lenVals.head?
      if p2p.isNone || len.isNone then some (fallbackLoop (splitLines t) p2p len)
      else some (p2p, len)
  | _, _, _ => none

/-! ### within (parser.py lines 85–91) -/
/-- `MeasurementParser.within`: true when no target was requested, false when
a target was requested but no value was parsed, otherwise `|val−target| ≤ tol`
(stated through the kernel-computable wrappers; `within_abs_iff` gives the
usual form). -/
def within (val target : Option ℚ) (tol : ℚ) : Bool :=
  match target with
  | none => true
  | some t =>
      match val with
      | none => false
      | some v => qLe (qAbs (qSub v t)) tol

/-! ### filter_tops (main.py lines 153–163) -/
/-- A fetched listing record.  `description` is the only field the match
filter parses; `title` (present on poc records) and the remaining fields are
only carried through.  `soldCount` is the seller signal that scraper.py's
`parse_listing` extracts (lines 308–323, default 0). -/
structure ListingRecord where
  url : String := ""
  title : String := ""
  description : String := ""
  price : String := ""
  image : Option String := none
  listedAt : Option String := none
  ageDays : Option ℚ := none
  seller : String := ""
  soldCount : Nat := 0
deriving Repr, DecidableEq

/-- `filter_tops`: parse measurements from each item's description only and
keep the item, annotated with the parsed pair, iff both `within` checks pass.
`none` models an uncaught exception from `extract_tops` (the loop has no
try/except). -/
def filter_tops (items : List ListingRecord) (p2p len : Option ℚ) (tol : ℚ) :
    Option (List (ListingRecord × Option ℚ × Option ℚ)) :=
  match items with
  | [] => some []
  | it :: rest =>
      match extract_tops it.description with
      | none => none
      | some wl =>
          match filter_tops rest p2p len tol with
          | none => none
          | some out =>
              some (if within wl.1 p2p tol && within wl.2 len tol
                    then (it, wl.1, wl.2) :: out else out)

/-! ### The CANCEL_FLAGS registry (main.py lines 41, 523–525, 644–650,
676–677, 735–743) -/
/-- The process-wide `CANCEL_FLAGS` dict, as an association list with unique
keys (Python dict assignment updates in place when the key exists and appends
otherwise). -/
abbrev Registry := List (String × Bool)

/-- `CANCEL_FLAGS.get(sid)`. -/
def getFlag : Registry → String → Option Bool
  | [], _ => none
  | kv :: rest, sid => if kv.1 = sid then some kv.2 else getFlag rest sid

/-- `CANCEL_FLAGS[sid] = b`. -/
def setFlag : Registry → String → Bool → Registry
  | [], sid, b => [(sid, b)]
  | kv :: rest, sid, b =>
      if kv.1 = sid then (kv.1, b) :: rest else kv :: setFlag rest sid b

/-- `del CANCEL_FLAGS[sid]` (keys are unique). -/
def delFlag : Registry → String → Registry
  | [], _ => []
  | kv :: rest, sid => if kv.1 = sid then rest else kv :: delFlag rest sid

/-- `sid in CANCEL_FLAGS`. -/
def hasKey (reg : Registry) (sid : String) : Bool := (getFlag reg sid).isSome

/-- The registration step of `/api/search/stream` (main.py lines 523–525):
`if search_id: CANCEL_FLAGS[search_id] = False`. -/
def search_stream_register (reg : Registry) (sid : String) : Registry :=
  if sid = "" then reg else setFlag reg sid false

/-- Response shape of `/api/search/cancel`. -/
structure CancelResponse where
  ok : Bool
  searchId : Option String := none
  error : Option String := none
deriving Repr, DecidableEq

/-- `cancel_stream` (main.py lines 735–743): an empty id is rejected with
`{ok: False, error: "missing searchId"}`; otherwise `CANCEL_FLAGS[sid] = True`
(inserting the key when absent) and `{ok: True, searchId}` is returned. -/
def cancel_stream (reg : Registry) (sid : String) : Registry × CancelResponse :=
  if sid = "" then (reg, { ok := false, error := some "missing searchId" })
  else (setFlag reg sid true, { ok := true, searchId := some sid })

/-- The consumer loop's disconnect handler (main.py line 677):
`CANCEL_FLAGS[search_id] = True` — with no emptiness guard on the id. -/
def disconnect_set (reg : Registry) (sid : String) : Registry := setFlag reg sid true

/-- The generator's `finally` cleanup (main.py lines 644–650):
`if search_id and search_id in CANCEL_FLAGS: del CANCEL_FLAGS[search_id]`. -/
def generator_cleanup (reg : Registry) (sid : String) : Registry :=
  if sid ≠ "" ∧ hasKey reg sid then delFlag reg sid else reg

/-! ### The streaming generator (main.py lines 527–650)

The browser work (`parse_listing`, the match decision on the fetched record)
is driven by external collaborators, so a run is modelled by the outcome of
each unit of work plus the value each cancellation check reads; the event
trace is then a pure function of those inputs. -/
/-- SSE events yielded by the generator.  `progress` carries its phase tag
(`"landing"` after navigation, `"parsing"` after a failed fetch, none after a
processed item), the `processed` counter, the total when known, and the
`matches` counter.  `matched` models a `match{item}` event (the claims do not
need its payload); `preamble` is the anti-buffering padding frame, which is
an SSE comment, not a data event. -/
inductive Event where
  | preamble
  | hello
  | progress (phase : Option String) (processed : Nat) (total : Option Nat) (mcount : Nat)
  | meta (links : Nat)
  | matched
  | cancelled
  | error
  | done
deriving Repr, DecidableEq

/-- Outcome of one unit of work (one candidate URL): `parse_listing` returned
nothing; or it returned a record, with the match filter deciding `matched`;
or the loop body raised (swallowed by the per-item `except`, which emits no
event). -/
inductive UnitOutcome where
  | noRecord
  | record (matched : Bool)
  | raised
deriving Repr, DecidableEq

/-- Stage at which a run-fatal fault occurs, when one does: landing-page
navigation (before the landing progress event) or link collection (after
it).  Browser teardown is assumed non-raising. -/
inductive FatalStage where
  | nav
  | collect
deriving Repr, DecidableEq

/-- Inputs determining one streaming run: the searchId, an optional fatal
fault, the per-URL outcomes, the `maxItems` bound, and the value the
cancellation flag reads at the i-th check (`False` also stands for an absent
key, since `CANCEL_FLAGS.get` of a missing key is falsy). -/
structure RunInput where
  searchId : String
  fatal : Option FatalStage := none
  outcomes : List UnitOutcome := []
  maxItems : Nat := 40
  flags : Nat → Bool := fun _ => false

/-- The `for i, url in enumerate(links)` loop (main.py lines 563–628): check
the flag before each unit of work and emit `cancelled` then stop when it is
set; a failed fetch still emits a progress tick; a match emits `match` then
the progress tick with the incremented counter; after the tick the loop stops
once `matches ≥ maxItems`; a raised body emits nothing and skips that
check. -/
def iterateLinks (sid : String) (flags : Nat → Bool) (maxItems total : Nat) :
    List UnitOutcome → Nat → Nat → Nat → List Event
  | [], _, _, _ => []
  | o :: rest, processed, mcount, idx =>
      if sid ≠ "" ∧ flags idx = true then [Event.cancelled]
      else
        match o with
        | .noRecord =>
            Event.progress (some "parsing") (processed + 1) (some total) mcount ::
              iterateLinks sid flags maxItems total rest (processed + 1) mcount (idx + 1)
        | .record m =>
            -- `if match: yield match; matches += 1` then the progress tick with
            -- the updated counter, then `if matches >= max_items: break`,
            -- spelled out per Boolean arm.
            match m with
            | true =>
                Event.matched ::
                  Event.progress none (processed + 1) (some total) (mcount + 1) ::
                    (if maxItems ≤ mcount + 1 then []
                     else iterateLinks sid flags maxItems total rest (processed + 1) (mcount + 1)
                       (idx + 1))
            | false =>
                Event.progress none (processed + 1) (some total) mcount ::
                  (if maxItems ≤ mcount then []
                   else iterateLinks sid flags maxItems total rest (processed + 1) mcount
                     (idx + 1))
        | .raised =>
            iterateLinks sid flags maxItems total rest (processed + 1) mcount (idx + 1)

/-- The full event trace of the sync generator (main.py lines 527–650):
preamble and hello; on a fatal fault `error` then `done` (the outer
`except`); otherwise the landing progress, the `meta{links}` event, the
iteration events, and the final `done`. -/
def generator_events (r : RunInput) : List Event :=
  Event.preamble :: Event.hello ::
    match r.fatal with
    | some .nav => [Event.error, Event.done]
    | some .collect => [Event.progress (some "landing") 0 none 0, Event.error, Event.done]
    | none =>
        Event.progress (some "landing") 0 none 0 ::
          Event.meta r.outcomes.length ::
            (iterateLinks r.searchId r.flags r.maxItems r.outcomes.length r.outcomes 0 0 0 ++
              [Event.done])

/-- Terminal events: `done`, `cancelled`, `error`. -/
def isTerminal : Event → Bool
  | .done => true
  | .cancelled => true
  | .error => true
  | _ => false

/-- Events of JSON type `"progress"` (any phase). -/
def isProgressEvent : Event → Bool
  | .progress _ _ _ _ => true
  | _ => false

def countTerminal : List Event → Nat
  | [] => 0
  | e :: rest => (if isTerminal e then 1 else 0) + countTerminal rest

def countProgress : List Event → Nat
  | [] => 0
  | e :: rest => (if isProgressEvent e then 1 else 0) + countProgress rest

/-! ### Match conditions of the two crawl modes -/
/-- The seller-mode match condition of the streaming generator (main.py lines
583–586): both `within` checks on the pair parsed from the record's
description — nothing else.  `none` models an extraction exception (caught by
the per-item `except`, so the item is skipped). -/
def seller_mode_match (rec : ListingRecord) (tp tl : Option ℚ) (tol : ℚ) : Option Bool :=
  (extract_tops rec.description).map
    (fun wl => within wl.1 tp tol && within wl.2 tl tol)

/-- Modelled from the spec: the incremental global-browse coordinator is code
of this repository that is not under src/ — scraper.py's `parse_listing`
supplies its `soldCount` field (lines 308–323), but the loop consuming it is
absent.  Per §4.3, in global-browse mode "a match additionally requires a
secondary heuristic — seller `soldCount > 50`" on top of the same two
tolerance checks. -/
def browse_mode_match (rec : ListingRecord) (tp tl : Option ℚ) (tol : ℚ) : Option Bool :=
  (extract_tops rec.description).map
    (fun wl => within wl.1 tp tol && within wl.2 tl tol && decide (50 < rec.soldCount))

/-- The progress tick the loop emits for a unit of work that did not raise:
phase `"parsing"` for a failed fetch, no phase for a processed record. -/
def unitTickEvent (o : UnitOutcome) (proc total m : Nat) : Event :=
  match o with
  | .noRecord => Event.progress (some "parsing") proc (some total) m
  | _ => Event.progress none proc (some total) m

/-! ## Theorems -/

theorem qDiv_eq (a b : ℚ) : qDiv a b = a / b := by
  unfold qDiv
  rw [Rat.divInt_eq_div]
  rcases eq_or_ne b 0 with rfl | hb
  · simp
  · have hbn : (b.num : ℚ) ≠ 0 := by
      exact_mod_cast fun h => hb (Rat.num_eq_zero.mp (by exact_mod_cast h))
    have had : (a.den : ℚ) ≠ 0 := by exact_mod_cast a.den_nz
    have hbd : (b.den : ℚ) ≠ 0 := by exact_mod_cast b.den_nz
    conv_rhs => rw [← Rat.num_div_den a, ← Rat.num_div_den b]
    push_cast
    field_simp

theorem qMul_eq (a b : ℚ) : qMul a b = a * b := by
  unfold qMul
  rw [Rat.divInt_eq_div]
  have had : (a.den : ℚ) ≠ 0 := by exact_mod_cast a.den_nz
  have hbd : (b.den : ℚ) ≠ 0 := by exact_mod_cast b.den_nz
  conv_rhs => rw [← Rat.num_div_den a, ← Rat.num_div_den b]
  push_cast
  field_simp

theorem qAdd_eq (a b : ℚ) : qAdd a b = a + b := by
  unfold qAdd
  rw [Rat.divInt_eq_div]
  have had : (a.den : ℚ) ≠ 0 := by exact_mod_cast a.den_nz
  have hbd : (b.den : ℚ) ≠ 0 := by exact_mod_cast b.den_nz
  conv_rhs => rw [← Rat.num_div_den a, ← Rat.num_div_den b]
  push_cast
  field_simp

theorem qSub_eq (a b : ℚ) : qSub a b = a - b := by
  unfold qSub
  rw [qAdd_eq, sub_eq_add_neg]

theorem qAbs_eq (a : ℚ) : qAbs a = |a| := by
  unfold qAbs
  split
  · rw [abs_of_neg]
    have : ¬ (0 : ℤ) ≤ a.num := by omega
    simpa using lt_of_not_ge fun h => this (Rat.num_nonneg.mpr h)
  · rw [abs_of_nonneg]
    exact Rat.num_nonneg.mp (by omega)

theorem qLt_iff (a b : ℚ) : qLt a b = true ↔ a < b := Iff.rfl

theorem qLe_iff (a b : ℚ) : qLe a b = true ↔ a ≤ b := by
  unfold qLe
  rw [Bool.not_eq_true']
  exact Iff.rfl

theorem cmPerInch_eq : cmPerInch = 2.54 := by
  unfold cmPerInch
  rw [Rat.mkRat_eq_div]
  norm_num

theorem smoke_extract1 : extract_tops "24x31" = some (some 24, some 31) := by decide

theorem smoke_extract2 : extract_tops "31x24" = some (some 24, some 31) := by decide

theorem smoke_extract3 : extract_tops "chest 1 1/0" = none := by decide

theorem smoke_extract4 : extract_tops "chest 20" = some (some 20, none) := by decide

theorem smoke_extract5 :
    extract_tops "p2p: 19.5in, length: 28cm" = some (some (mkRat 39 2), some (mkRat 1400 127)) := by
  decide

theorem smoke_to_inches1 : to_inches "19" "cm" = some (mkRat 950 127) := by decide

theorem smoke_to_inches2 : to_inches "19cm" "" = none := by decide

theorem smoke_to_inches3 : to_inches "19 1/2" "" = some (mkRat 39 2) := by decide

theorem smoke_to_inches4 : to_inches "1 1/0" "" = none := by decide

theorem within_abs_iff (v t tol : ℚ) :
    within (some v) (some t) tol = true ↔ |v - t| ≤ tol := by
  show qLe (qAbs (qSub v t)) tol = true ↔ _
  rw [qLe_iff, qSub_eq, qAbs_eq]

/-! ### Helper lemmas -/
theorem getFlag_setFlag_self (reg : Registry) (sid : String) (b : Bool) :
    getFlag (setFlag reg sid b) sid = some b := by
  induction reg with
  | nil => simp [setFlag, getFlag]
  | cons kv rest ih =>
      by_cases h : kv.1 = sid
      · simp [setFlag, getFlag, h]
      · simp [setFlag, getFlag, h, ih]

/-! ### Claims C4, C5, C10: the cancellation registry -/
/-- C4: the claim says every registry entry created during a run is deleted
by the time the stream terminates, on every exit path including consumer
disconnect.  The code violates this: for a run whose caller supplied no
`searchId` (so `search_id = ""`), the disconnect handler (main.py line 677)
executes `CANCEL_FLAGS[""] = True` with no emptiness guard, while the
`finally` cleanup (lines 644–650) only deletes non-empty ids — so the entry
for `""` survives the run.  Starting from an empty registry, the
register → disconnect → cleanup sequence of such a run ends with the leaked
entry `("", true)` still present. -/
theorem c4_empty_id_disconnect_leaks_entry :
    generator_cleanup (disconnect_set (search_stream_register [] "") "") "" = [("", true)] ∧
      getFlag (generator_cleanup (disconnect_set (search_stream_register [] "") "") "") "" =
        some true := by
  decide

/-- C5 counterexample: calling cancel with an id that is not currently
registered is *not* a no-op on registry state — starting from the empty
registry, `cancel_stream` inserts the entry `("abc", true)`. -/
theorem c5_cancel_unknown_id_mutates_registry :
    (cancel_stream [] "abc").1 = [("abc", true)] ∧ (cancel_stream [] "abc").1 ≠ [] := by
  decide

/-- C5 (amended): for every non-empty searchId, the cancel endpoint returns
the acknowledgement `{ok: true, searchId}` and sets the id's flag to true —
inserting a fresh registry entry (rather than leaving the registry
unchanged) when the id was not registered; it never errors. -/
theorem c5_cancel_ack_and_sets_flag (reg : Registry) (sid : String) (h : sid ≠ "") :
    (cancel_stream reg sid).2 = { ok := true, searchId := some sid, error := none } ∧
      getFlag (cancel_stream reg sid).1 sid = some true ∧
      (getFlag reg sid = none → (cancel_stream reg sid).1 ≠ reg) := by
  refine ⟨by simp [cancel_stream, h], by simp [cancel_stream, h, getFlag_setFlag_self], ?_⟩
  intro hnone heq
  have hset : (cancel_stream reg sid).1 = setFlag reg sid true := by simp [cancel_stream, h]
  have := getFlag_setFlag_self reg sid true
  rw [← hset, heq, hnone] at this
  cases this

/-- C5 witness: the amended claim at the concrete unregistered id `"abc"`. -/
theorem c5_witness :
    (cancel_stream [] "abc").2 = { ok := true, searchId := some "abc", error := none } ∧
      getFlag (cancel_stream [] "abc").1 "abc" = some true ∧
      (getFlag ([] : Registry) "abc" = none → (cancel_stream [] "abc").1 ≠ []) :=
  c5_cancel_ack_and_sets_flag [] "abc" (by decide)

/-- C10: starting a streaming search with a non-empty searchId
unconditionally sets that id's cancellation flag to False, overwriting any
prior value; in particular a cancel call issued before the stream registers
the id is nullified by the registration. -/
theorem c10_register_overwrites_to_false (reg : Registry) (sid : String) (h : sid ≠ "") :
    getFlag (search_stream_register reg sid) sid = some false ∧
      getFlag (search_stream_register (cancel_stream reg sid).1 sid) sid = some false := by
  constructor
  · simp [search_stream_register, h, getFlag_setFlag_self]
  · simp [search_stream_register, cancel_stream, h, getFlag_setFlag_self]

/-- C10 witness: registering `"s1"` after a prior cancel of `"s1"` still
reads back False. -/
theorem c10_witness :
    getFlag (search_stream_register [] "s1") "s1" = some false ∧
      getFlag (search_stream_register (cancel_stream [] "s1").1 "s1") "s1" = some false :=
  c10_register_overwrites_to_false [] "s1" (by decide)

/-! ### Claim C8: to_inches unit handling -/
/-- C8 counterexample: the spec's round-trip
`to_inches("19", "cm") == to_inches("19cm", "")` fails — the right-hand call
raises ValueError (`float("19cm")`), modelled as `none`, while the left-hand
call converts: unit parsing is not suffix-position-independent. -/
theorem c8_round_trip_fails :
    to_inches "19" "cm" ≠ to_inches "19cm" "" ∧ to_inches "19cm" "" = none ∧
      to_inches "19" "cm" = some (mkRat 950 127) := by
  decide

/-- C8 (amended): a unit is honored only via the unit argument.  Whenever the
lower-cased, stripped unit argument starts with "cm" the parsed number is
divided by 2.54; any other recognized unit, or no unit, leaves the number
as already-inches; a unit suffix sitting in the number string is not parsed
(the numeric parse fails instead, as in the counterexample). -/
theorem toInchesL_unit (n u : List Char) :
    toInchesL n u =
      if unitIsCm u then (toInchesL n []).map (fun v => v / 2.54) else toInchesL n [] := by
  unfold toInchesL
  have hemp : unitIsCm [] = false := by decide
  cases h : toInchesNum (stripChars (List.map quoteNorm n)) <;>
    cases hcm : unitIsCm u <;> simp [h, hcm, hemp, qDiv_eq, cmPerInch_eq]

theorem c8_unit_only_from_unit_argument (n u : String) :
    to_inches n u =
      if unitIsCm u.toList then (to_inches n "").map (fun v => v / 2.54)
      else to_inches n "" := by
  have h0 : ("" : String).toList = [] := rfl
  unfold to_inches
  rw [h0]
  exact toInchesL_unit n.toList u.toList

/-! ### Claims C1, C3: the streaming event trace -/
theorem countTerminal_append (l1 l2 : List Event) :
    countTerminal (l1 ++ l2) = countTerminal l1 + countTerminal l2 := by
  induction l1 with
  | nil => simp [countTerminal]
  | cons e rest ih => simp [countTerminal, ih]; omega

theorem countProgress_append (l1 l2 : List Event) :
    countProgress (l1 ++ l2) = countProgress l1 + countProgress l2 := by
  induction l1 with
  | nil => simp [countProgress]
  | cons e rest ih => simp [countProgress, ih]; omega

/-- The iteration loop emits at most one terminal event (a `cancelled`). -/
theorem iterate_terminal_le_one (os : List UnitOutcome) :
    ∀ (sid : String) (flags : Nat → Bool) (maxI total p m i : Nat),
      countTerminal (iterateLinks sid flags maxI total os p m i) ≤ 1 := by
  induction os with
  | nil => intros; simp [iterateLinks, countTerminal]
  | cons o rest ih =>
      intro sid flags maxI total p m i
      unfold iterateLinks
      split
      · simp [countTerminal, isTerminal]
      · cases o with
        | noRecord =>
            simpa [countTerminal, isTerminal] using ih sid flags maxI total (p + 1) m (i + 1)
        | record mt =>
            cases mt
            · show countTerminal (Event.progress none (p + 1) (some total) m ::
                (if maxI ≤ m then []
                 else iterateLinks sid flags maxI total rest (p + 1) m (i + 1))) ≤ 1
              split
              · simp [countTerminal, isTerminal]
              · simpa [countTerminal, isTerminal] using ih sid flags maxI total (p + 1) m (i + 1)
            · show countTerminal (Event.matched ::
                Event.progress none (p + 1) (some total) (m + 1) ::
                  (if maxI ≤ m + 1 then []
                   else iterateLinks sid flags maxI total rest (p + 1) (m + 1) (i + 1))) ≤ 1
              split
              · simp [countTerminal, isTerminal]
              · simpa [countTerminal, isTerminal] using
                  ih sid flags maxI total (p + 1) (m + 1) (i + 1)
        | raised => exact ih sid flags maxI total (p + 1) m (i + 1)

/-- C1 counterexample: the claim says exactly one terminal event per run,
always last.  A cancelled run emits two: with the flag already set at the
first check, the trace is `preamble, hello, progress(landing), meta 1,
cancelled, done` — the `cancelled` is followed by a `done`, so two terminal
events occur, not exactly one. -/
theorem c1_cancelled_run_two_terminals :
    countTerminal (generator_events
      { searchId := "s", fatal := none, outcomes := [UnitOutcome.noRecord],
        maxItems := 40, flags := fun _ => true }) = 2 ∧
    generator_events
      { searchId := "s", fatal := none, outcomes := [UnitOutcome.noRecord],
        maxItems := 40, flags := fun _ => true } =
      [Event.preamble, Event.hello, Event.progress (some "landing") 0 none 0,
       Event.meta 1, Event.cancelled, Event.done] := by
  constructor
  · decide
  · decide

/-- C1 (amended): every streaming run emits at least one and at most two
terminal events, and its last event is always `done`; a cancelled or error
run emits its `cancelled`/`error` immediately before that final `done` (two
terminal events), a normal run emits `done` alone — so the stream never ends
without a terminal event, but not exactly one terminal event on every
path. -/
theorem c1_terminal_always_last_never_silent (r : RunInput) :
    (generator_events r).getLast? = some Event.done ∧
      1 ≤ countTerminal (generator_events r) ∧
      countTerminal (generator_events r) ≤ 2 := by
  obtain ⟨sid, fatal, os, maxI, flags⟩ := r
  cases fatal with
  | some st =>
      cases st <;>
        exact ⟨rfl, by simp [generator_events, countTerminal, isTerminal],
          by simp [generator_events, countTerminal, isTerminal]⟩
  | none =>
      have hle := iterate_terminal_le_one os sid flags maxI os.length 0 0 0
      have hshape : generator_events
          { searchId := sid, fatal := none, outcomes := os, maxItems := maxI, flags := flags } =
          (Event.preamble :: Event.hello :: Event.progress (some "landing") 0 none 0 ::
            Event.meta os.length :: iterateLinks sid flags maxI os.length os 0 0 0) ++
            [Event.done] := by
        simp [generator_events]
      rw [hshape]
      refine ⟨List.getLast?_concat _, ?_, ?_⟩
      · rw [countTerminal_append]
        simp [countTerminal, isTerminal]
      · rw [countTerminal_append]
        simp [countTerminal, isTerminal]
        omega

theorem isProgressEvent_unitTick (o : UnitOutcome) (proc total m : Nat) :
    isProgressEvent (unitTickEvent o proc total m) = true := by
  cases o <;> rfl

/-- C3 counterexample: the claim counts exactly 3 progress events before the
cancellation, but the stream also emits the landing-phase progress event, so
a 10-link run cancelled between the 3rd and 4th unit of work carries 4
events of type `progress`, not 3. -/
theorem c3_progress_count_is_four :
    countProgress (generator_events
      { searchId := "s", fatal := none,
        outcomes := List.replicate 10 UnitOutcome.noRecord, maxItems := 40,
        flags := fun i => decide (3 ≤ i) }) = 4 := by
  decide

/-- C3 (amended): in a 10-link run whose non-empty searchId's flag is unset
at the first three checks and set from the fourth (i.e. set between the 3rd
and 4th unit of work), with the first three units doing ordinary non-matching
work and the match budget not yet reached, the stream is exactly: preamble,
hello, the landing progress event, `meta 10`, the 3 per-unit progress ticks,
one `cancelled`, and the final `done` — so 3 iteration progress events (4
events of type progress in total, counting the landing one), one `cancelled`,
and no match or progress events after it. -/
theorem c3_cancel_between_third_and_fourth_unit
    (sid : String) (flags : Nat → Bool) (o1 o2 o3 : UnitOutcome)
    (rest : List UnitOutcome) (maxI : Nat)
    (hsid : sid ≠ "") (h0 : flags 0 = false) (h1 : flags 1 = false)
    (h2 : flags 2 = false) (h3 : flags 3 = true) (hmax : 1 ≤ maxI)
    (hrest : rest.length = 7)
    (ho : ∀ o ∈ [o1, o2, o3], o = UnitOutcome.noRecord ∨ o = UnitOutcome.record false) :
    generator_events
        { searchId := sid, fatal := none, outcomes := o1 :: o2 :: o3 :: rest,
          maxItems := maxI, flags := flags } =
      [Event.preamble, Event.hello, Event.progress (some "landing") 0 none 0,
       Event.meta 10, unitTickEvent o1 1 10 0, unitTickEvent o2 2 10 0,
       unitTickEvent o3 3 10 0, Event.cancelled, Event.done] ∧
    countProgress (generator_events
        { searchId := sid, fatal := none, outcomes := o1 :: o2 :: o3 :: rest,
          maxItems := maxI, flags := flags }) = 4 := by
  obtain ⟨o4, rest4, rfl⟩ : ∃ a r, rest = a :: r := by
    cases rest with
    | nil => simp at hrest
    | cons a r => exact ⟨a, r, rfl⟩
  have hr4 : rest4.length = 6 := by simpa using hrest
  have ho1 := ho o1 (by simp)
  have ho2 := ho o2 (by simp)
  have ho3 := ho o3 (by simp)
  have hm0 : ¬ (maxI ≤ 0) := by omega
  have hc0 : ¬ (sid ≠ "" ∧ flags 0 = true) := by simp [h0]
  have hc1 : ¬ (sid ≠ "" ∧ flags 1 = true) := by simp [h1]
  have hc2 : ¬ (sid ≠ "" ∧ flags 2 = true) := by simp [h2]
  have hc3 : sid ≠ "" ∧ flags 3 = true := ⟨hsid, h3⟩
  have heq : generator_events
      { searchId := sid, fatal := none, outcomes := o1 :: o2 :: o3 :: o4 :: rest4,
        maxItems := maxI, flags := flags } =
      [Event.preamble, Event.hello, Event.progress (some "landing") 0 none 0,
       Event.meta 10, unitTickEvent o1 1 10 0, unitTickEvent o2 2 10 0,
       unitTickEvent o3 3 10 0, Event.cancelled, Event.done] := by
    rcases ho1 with rfl | rfl <;> rcases ho2 with rfl | rfl <;> rcases ho3 with rfl | rfl <;>
      simp [generator_events, iterateLinks, unitTickEvent, hc0, hc1, hc2, hc3, hm0, hr4,
        h0, h1, h2, h3, hsid]
  refine ⟨heq, ?_⟩
  rw [heq]
  rcases ho1 with rfl | rfl <;> rcases ho2 with rfl | rfl <;> rcases ho3 with rfl | rfl <;>
    simp [countProgress, isProgressEvent, unitTickEvent]

/-- C3 witness: the amended claim at a concrete 10-link run (all fetches
failing) with the flag set from the 4th check on. -/
theorem c3_witness :
    generator_events
        { searchId := "s", fatal := none,
          outcomes := UnitOutcome.noRecord :: UnitOutcome.noRecord :: UnitOutcome.noRecord ::
            List.replicate 7 UnitOutcome.noRecord,
          maxItems := 40, flags := fun i => decide (3 ≤ i) } =
      [Event.preamble, Event.hello, Event.progress (some "landing") 0 none 0,
       Event.meta 10, unitTickEvent UnitOutcome.noRecord 1 10 0,
       unitTickEvent UnitOutcome.noRecord 2 10 0, unitTickEvent UnitOutcome.noRecord 3 10 0,
       Event.cancelled, Event.done] ∧
    countProgress (generator_events
        { searchId := "s", fatal := none,
          outcomes := UnitOutcome.noRecord :: UnitOutcome.noRecord :: UnitOutcome.noRecord ::
            List.replicate 7 UnitOutcome.noRecord,
          maxItems := 40, flags := fun i => decide (3 ≤ i) }) = 4 :=
  c3_cancel_between_third_and_fourth_unit "s" (fun i => decide (3 ≤ i))
    UnitOutcome.noRecord UnitOutcome.noRecord UnitOutcome.noRecord
    (List.replicate 7 UnitOutcome.noRecord) 40
    (by decide) (by decide) (by decide) (by decide) (by decide) (by decide)
    (by decide) (by decide)

/-! ### Claim C6: the match filter -/
/-- C6: the match filter parses measurements from the record's description
only — a record differing in title or any other field but sharing the
description filters identically, with only the carried record swapped — and
returns a populated result iff both `within` checks pass, where `within` is
true when the target is absent, false when the value is absent but the
target present, and `|value − target| ≤ tolerance` otherwise. -/
theorem c6_filter_description_only_and_within
    (r : ListingRecord) (p l : Option ℚ) (tol : ℚ) (w L : Option ℚ)
    (hx : extract_tops r.description = some (w, L)) :
    (∀ (v : Option ℚ) (tol' : ℚ), within v none tol' = true) ∧
    (∀ (t tol' : ℚ), within none (some t) tol' = false) ∧
    (∀ (v t tol' : ℚ), within (some v) (some t) tol' = true ↔ |v - t| ≤ tol') ∧
    (∀ r' : ListingRecord, r.description = r'.description →
      filter_tops [r'] p l tol =
        (filter_tops [r] p l tol).map (List.map (fun x => (r', x.2.1, x.2.2)))) ∧
    (filter_tops [r] p l tol = some [(r, w, L)] ↔
      (within w p tol = true ∧ within L l tol = true)) ∧
    (filter_tops [r] p l tol = some [] ↔
      ¬ (within w p tol = true ∧ within L l tol = true)) := by
  have hrun : filter_tops [r] p l tol =
      some (if within w p tol && within L l tol then [(r, w, L)] else []) := by
    simp [filter_tops, hx]
  refine ⟨fun v tol' => rfl, fun t tol' => rfl, fun v t tol' => within_abs_iff v t tol', ?_, ?_, ?_⟩
  · intro r' hdesc
    have hrun' : filter_tops [r'] p l tol =
        some (if within w p tol && within L l tol then [(r', w, L)] else []) := by
      simp [filter_tops, ← hdesc, hx]
    rw [hrun, hrun']
    cases h : within w p tol && within L l tol <;> simp [h]
  · rw [hrun]
    cases h : within w p tol && within L l tol
    · simp only [h, if_false, Bool.false_eq_true]
      constructor
      · intro heq; simp at heq
      · rintro ⟨h1, h2⟩; rw [h1, h2] at h; simp at h
    · have hb : within w p tol = true ∧ within L l tol = true := by
        simpa [Bool.and_eq_true] using h
      simp [h, hb]
  · rw [hrun]
    cases h : within w p tol && within L l tol
    · simp only [h, if_false, Bool.false_eq_true]
      constructor
      · intro _ hand
        rw [hand.1, hand.2] at h; simp at h
      · intro _; trivial
    · have hb : within w p tol = true ∧ within L l tol = true := by
        simpa [Bool.and_eq_true] using h
      simp [h, hb]

/-- C6 witness: a concrete record whose description parses to (19.5, 28/2.54)
matched against targets (19.5, 11) with tolerance 1/2. -/
theorem c6_witness :
    (∀ (v : Option ℚ) (tol' : ℚ), within v none tol' = true) ∧
    (∀ (t tol' : ℚ), within none (some t) tol' = false) ∧
    (∀ (v t tol' : ℚ), within (some v) (some t) tol' = true ↔ |v - t| ≤ tol') ∧
    (∀ r' : ListingRecord,
      ({ description := "p2p: 19.5in, length: 28cm" } : ListingRecord).description =
        r'.description →
      filter_tops [r'] (some (mkRat 39 2)) (some 11) (mkRat 1 2) =
        (filter_tops [{ description := "p2p: 19.5in, length: 28cm" }]
            (some (mkRat 39 2)) (some 11) (mkRat 1 2)).map
          (List.map (fun x => (r', x.2.1, x.2.2)))) ∧
    (filter_tops [{ description := "p2p: 19.5in, length: 28cm" }]
        (some (mkRat 39 2)) (some 11) (mkRat 1 2) =
      some [({ description := "p2p: 19.5in, length: 28cm" },
             some (mkRat 39 2), some (mkRat 1400 127))] ↔
      (within (some (mkRat 39 2)) (some (mkRat 39 2)) (mkRat 1 2) = true ∧
       within (some (mkRat 1400 127)) (some 11) (mkRat 1 2) = true)) ∧
    (filter_tops [{ description := "p2p: 19.5in, length: 28cm" }]
        (some (mkRat 39 2)) (some 11) (mkRat 1 2) = some [] ↔
      ¬ (within (some (mkRat 39 2)) (some (mkRat 39 2)) (mkRat 1 2) = true ∧
         within (some (mkRat 1400 127)) (some 11) (mkRat 1 2) = true)) :=
  c6_filter_description_only_and_within
    { description := "p2p: 19.5in, length: 28cm" } (some (mkRat 39 2)) (some 11) (mkRat 1 2)
    (some (mkRat 39 2)) (some (mkRat 1400 127)) (by decide)

/-! ### Claim C9: the two crawl modes' match conditions -/
/-- C9: in global-browse mode an item is emitted as a match iff both
tolerance checks pass and its seller's soldCount exceeds 50; the seller-mode
path requires only the two tolerance checks, with no soldCount condition. -/
theorem c9_browse_soldcount_heuristic
    (rec : ListingRecord) (tp tl : Option ℚ) (tol : ℚ) (w L : Option ℚ)
    (hx : extract_tops rec.description = some (w, L)) :
    (browse_mode_match rec tp tl tol = some true ↔
      (within w tp tol = true ∧ within L tl tol = true ∧ 50 < rec.soldCount)) ∧
    (seller_mode_match rec tp tl tol = some true ↔
      (within w tp tol = true ∧ within L tl tol = true)) := by
  unfold browse_mode_match seller_mode_match
  rw [hx]
  simp [Bool.and_eq_true, decide_eq_true_eq, and_assoc]

/-- C9 witness: a record parsing to (24, 31) with soldCount 60 matches in
browse mode against targets (24, 31); the same record matches in seller mode
with no soldCount requirement. -/
theorem c9_witness :
    (browse_mode_match { description := "24x31", soldCount := 60 } (some 24) (some 31) 1 =
        some true ↔
      (within (some 24) (some 24) 1 = true ∧ within (some 31) (some 31) 1 = true ∧
        50 < ({ description := "24x31", soldCount := 60 } : ListingRecord).soldCount)) ∧
    (seller_mode_match { description := "24x31", soldCount := 60 } (some 24) (some 31) 1 =
        some true ↔
      (within (some 24) (some 24) 1 = true ∧ within (some 31) (some 31) 1 = true)) :=
  c9_browse_soldcount_heuristic { description := "24x31", soldCount := 60 }
    (some 24) (some 31) 1 (some 24) (some 31) (by decide)

/-! ### Nonnegativity of extracted values (towards claim C2)

Captured `val` strings come from the regex grammar and contain only digits,
`.`, whitespace and `/` — never a minus sign — and `to_inches` of such a
string is non-negative when it does not raise. -/
theorem mem_stripChars {a : Char} {cs : List Char} (h : a ∈ stripChars cs) : a ∈ cs := by
  unfold stripChars at h
  rw [List.mem_reverse] at h
  have h2 := (List.dropWhile_sublist _).mem h
  rw [List.mem_reverse] at h2
  exact (List.dropWhile_sublist _).mem h2

theorem scalePow10_nonneg {q : ℚ} (hq : 0 ≤ q) (e : Int) : 0 ≤ scalePow10 q e := by
  unfold scalePow10
  split
  · rw [qMul_eq]
    exact mul_nonneg hq (by positivity)
  · rw [qDiv_eq]
    exact div_nonneg hq (by positivity)

theorem parseUnsignedFloat_nonneg {cs : List Char} {q : ℚ}
    (h : parseUnsignedFloat cs = some q) : 0 ≤ q := by
  unfold parseUnsignedFloat at h
  dsimp only at h
  repeat' split at h
  all_goals first
    | exact Option.noConfusion h
    | (injection h with h; subst h
       refine scalePow10_nonneg ?_ _
       rw [qAdd_eq, qDiv_eq]
       positivity)
    | (injection h with h; subst h
       refine scalePow10_nonneg ?_ _
       positivity)

theorem parsePyFloat_nonneg {cs : List Char} {q : ℚ}
    (hnd : ∀ c ∈ cs, c ≠ '-') (h : parsePyFloat cs = some q) : 0 ≤ q := by
  unfold parsePyFloat at h
  split at h
  · rename_i rest heq
    exact absurd rfl
      (hnd '-' (mem_stripChars (by rw [heq]; exact List.mem_cons_self _ _)))
  · exact parseUnsignedFloat_nonneg h
  · exact parseUnsignedFloat_nonneg h

theorem parseFracCore_nonneg {cs : List Char} {q : ℚ}
    (h : parseFracCore cs = some q) : 0 ≤ q := by
  unfold parseFracCore at h
  dsimp only at h
  repeat' split at h
  all_goals first
    | exact Option.noConfusion h
    | (injection h with h; subst h; rw [qDiv_eq]; positivity)
    | (injection h with h; subst h; positivity)

theorem parsePyFraction_nonneg {cs : List Char} {q : ℚ}
    (hnd : ∀ c ∈ cs, c ≠ '-') (h : parsePyFraction cs = some q) : 0 ≤ q := by
  unfold parsePyFraction at h
  split at h
  · rename_i rest heq
    exact absurd rfl
      (hnd '-' (mem_stripChars (by rw [heq]; exact List.mem_cons_self _ _)))
  · exact parseFracCore_nonneg h
  · exact parseFracCore_nonneg h

theorem toInchesNum_nonneg {s : List Char} {q : ℚ} (hnd : ∀ c ∈ s, c ≠ '-')
    (h : toInchesNum s = some q) : 0 ≤ q := by
  unfold toInchesNum at h
  dsimp only at h
  split at h
  · split at h
    · rename_i x y hx hy
      injection h with h
      subst h
      rw [qAdd_eq]
      have hx0 := parsePyFloat_nonneg
        (fun c hc => hnd c ((List.takeWhile_sublist _).mem hc)) hx
      have hy0 := parsePyFraction_nonneg
        (fun c hc => hnd c ((List.dropWhile_sublist _).mem ((List.dropWhile_sublist _).mem hc))) hy
      exact add_nonneg hx0 hy0
    · exact Option.noConfusion h
  · split at h
    · exact parsePyFraction_nonneg hnd h
    · exact parsePyFloat_nonneg hnd h

theorem quoteNorm_eq_dash {c : Char} (h : quoteNorm c = '-') : c = '-' := by
  unfold quoteNorm at h
  split at h
  · exact absurd h (by decide)
  · exact h

theorem cmPerInch_nonneg : (0 : ℚ) ≤ cmPerInch := by
  rw [cmPerInch_eq]; norm_num

theorem toInchesL_nonneg {v u : List Char} {q : ℚ} (hnd : ∀ c ∈ v, c ≠ '-')
    (h : toInchesL v u = some q) : 0 ≤ q := by
  have hnd' : ∀ c ∈ stripChars (List.map quoteNorm v), c ≠ '-' := by
    intro c hc hcd
    subst hcd
    obtain ⟨c', hc', hcc⟩ := List.mem_map.mp (mem_stripChars hc)
    exact hnd c' hc' (quoteNorm_eq_dash hcc)
  unfold toInchesL at h
  cases hv0 : toInchesNum (stripChars (List.map quoteNorm v)) with
  | none => rw [hv0] at h; cases h
  | some v0 =>
      rw [hv0] at h
      injection h with h
      subst h
      have hv0n : 0 ≤ v0 := toInchesNum_nonneg hnd' hv0
      split
      · rw [qDiv_eq]
        exact div_nonneg hv0n cmPerInch_nonneg
      · exact hv0n

theorem takeWhile_digit_no_dash {cs : List Char} :
    ∀ c ∈ cs.takeWhile isDigitChar, c ≠ '-' := by
  intro c hc hcd
  subst hcd
  exact absurd (List.mem_takeWhile_imp hc) (by decide)

theorem matchNumFrac_no_dash (r1 : List Char) : ∀ c ∈ (matchNumFrac r1).1, c ≠ '-' := by
  unfold matchNumFrac
  split
  · split
    · simp
    · intro c hc hcd
      subst hcd
      rcases List.mem_cons.mp hc with h | h
      · exact absurd h (by decide)
      · exact takeWhile_digit_no_dash '-' h rfl
  · simp

theorem matchNumMixed_no_dash (r2 : List Char) : ∀ c ∈ (matchNumMixed r2).1, c ≠ '-' := by
  unfold matchNumMixed
  dsimp only
  split
  · split
    · rename_i a b rest heq hcond
      intro c hc hcd
      subst hcd
      rw [List.mem_append] at hc
      rcases hc with hws | hl
      · exact absurd (List.mem_takeWhile_imp hws) (by decide)
      · simp only [Bool.and_eq_true, decide_eq_true_eq] at hcond
        rcases List.mem_cons.mp hl with h | h
        · subst h; exact absurd hcond.1.2 (by decide)
        · rcases List.mem_cons.mp h with h' | h'
          · exact absurd h' (by decide)
          · rcases List.mem_cons.mp h' with h'' | h''
            · subst h''; exact absurd hcond.2 (by decide)
            · simp at h''
    · simp
  · simp

theorem matchNum_no_dash {cs val r : List Char} (h : matchNum cs = some (val, r)) :
    ∀ c ∈ val, c ≠ '-' := by
  unfold matchNum at h
  dsimp only at h
  split at h
  · exact Option.noConfusion h
  · injection h with h
    obtain ⟨h1, h2⟩ := Prod.mk.injEq _ _ _ _ ▸ h
    subst h1
    intro c hc
    rw [List.mem_append, List.mem_append] at hc
    rcases hc with (hd | hf) | hm
    · exact takeWhile_digit_no_dash c hd
    · exact matchNumFrac_no_dash _ c hf
    · exact matchNumMixed_no_dash _ c hm

theorem numCandidates_no_dash {cs v r : List Char} (h : (v, r) ∈ numCandidates cs) :
    ∀ c ∈ v, c ≠ '-' := by
  unfold numCandidates at h
  dsimp only at h
  split at h
  · simp at h
  · split at h
    · split at h
      · rcases List.mem_cons.mp h with heq | heq
        · obtain ⟨h1, _⟩ := Prod.mk.injEq _ _ _ _ ▸ heq
          subst h1
          exact takeWhile_digit_no_dash
        · simp at heq
      · rcases List.mem_cons.mp h with heq | heq
        · obtain ⟨h1, _⟩ := Prod.mk.injEq _ _ _ _ ▸ heq
          subst h1
          intro c hc hcd
          subst hcd
          rw [List.mem_append] at hc
          rcases hc with hd | hf
          · exact takeWhile_digit_no_dash '-' hd rfl
          · rcases List.mem_cons.mp hf with h' | h'
            · exact absurd h' (by decide)
            · exact takeWhile_digit_no_dash '-' h' rfl
        · rcases List.mem_cons.mp heq with heq' | heq'
          · obtain ⟨h1, _⟩ := Prod.mk.injEq _ _ _ _ ▸ heq'
            subst h1
            exact takeWhile_digit_no_dash
          · simp at heq'
    · rcases List.mem_cons.mp h with heq | heq
      · obtain ⟨h1, _⟩ := Prod.mk.injEq _ _ _ _ ▸ heq
        subst h1
        exact takeWhile_digit_no_dash
      · simp at heq

theorem matchLabeledAt_no_dash {labelM : List Char → Option (List Char)}
    {cs : List Char} {vu : List Char × List Char} {lc : Char} {r : List Char}
    (h : matchLabeledAt labelM cs = some (vu, lc, r)) : ∀ c ∈ vu.1, c ≠ '-' := by
  unfold matchLabeledAt at h
  repeat' split at h
  all_goals first
    | exact Option.noConfusion h
    | (injection h with h
       obtain ⟨h1, h2⟩ := Prod.mk.injEq _ _ _ _ ▸ h
       subst h1
       intro c hc
       exact matchNum_no_dash (by assumption) c hc)

theorem matchSimpleAt_no_dash {labelM : List Char → Option (List Char)}
    {cs : List Char} {vu : List Char × List Char} {lc : Char} {r : List Char}
    (h : matchSimpleAt labelM cs = some (vu, lc, r)) : ∀ c ∈ vu.1, c ≠ '-' := by
  unfold matchSimpleAt at h
  dsimp only at h
  repeat' split at h
  all_goals first
    | exact Option.noConfusion h
    | (injection h with h
       obtain ⟨h1, h2⟩ := Prod.mk.injEq _ _ _ _ ▸ h
       subst h1
       intro c hc
       exact matchNum_no_dash (by assumption) c hc)

theorem firstSome_mem {α β : Type} {l : List α} {f : α → Option β} {b : β}
    (h : firstSome l f = some b) : ∃ a ∈ l, f a = some b := by
  induction l with
  | nil => exact Option.noConfusion h
  | cons a rest ih =>
      unfold firstSome at h
      split at h
      · rename_i b' hb'
        injection h with h
        subst h
        exact ⟨a, List.mem_cons_self _ _, hb'⟩
      · obtain ⟨a', ha', hfa'⟩ := ih h
        exact ⟨a', List.mem_cons_of_mem _ ha', hfa'⟩

theorem matchPairAt_no_dash {cs : List Char} {pm : PairMatch} {lc : Char} {r : List Char}
    (h : matchPairAt cs = some (pm, lc, r)) :
    (∀ c ∈ pm.w, c ≠ '-') ∧ (∀ c ∈ pm.l, c ≠ '-') := by
  unfold matchPairAt at h
  obtain ⟨wc, hwc, h⟩ := firstSome_mem h
  obtain ⟨u1c, hu1c, h⟩ := firstSome_mem h
  split at h
  · split at h
    · obtain ⟨lc', hlc', h⟩ := firstSome_mem h
      obtain ⟨u2c, hu2c, h⟩ := firstSome_mem h
      dsimp only at h
      split at h
      · injection h with h
        obtain ⟨h1, h2⟩ := Prod.mk.injEq _ _ _ _ ▸ h
        subst h1
        obtain ⟨wv, wr⟩ := wc
        obtain ⟨lv, lr⟩ := lc'
        exact ⟨numCandidates_no_dash hwc, numCandidates_no_dash hlc'⟩
      · exact Option.noConfusion h
    · exact Option.noConfusion h
  · exact Option.noConfusion h

/-- Everything `scanAll` returns satisfies any property its matcher
guarantees. -/
theorem scanAll_property {α : Type} (P : α → Prop)
    (matchAt : List Char → Option (α × Char × List Char))
    (hmt : ∀ cs a c r, matchAt cs = some (a, c, r) → P a) :
    ∀ (fuel : Nat) (prev : Option Char) (cs : List Char) (x : α),
      x ∈ scanAll matchAt fuel prev cs → P x := by
  intro fuel
  induction fuel with
  | zero =>
      intro prev cs x hx
      simp [scanAll] at hx
  | succ f ih =>
      intro prev cs x hx
      cases cs with
      | nil => simp [scanAll] at hx
      | cons c rest =>
          unfold scanAll at hx
          split at hx
          · rename_i a lcc r hb hm
            rcases List.mem_cons.mp hx with rfl | hx'
            · exact hmt _ _ _ _ hm
            · exact ih _ _ _ hx'
          · exact ih _ _ _ hx

theorem mapToInches_mem {ms : List (List Char × List Char)} {qs : List ℚ} {q : ℚ}
    (h : mapToInches ms = some qs) (hq : q ∈ qs) :
    ∃ vu ∈ ms, toInchesL vu.1 vu.2 = some q := by
  induction ms generalizing qs with
  | nil =>
      injection h with h
      subst h
      simp at hq
  | cons vu rest ih =>
      unfold mapToInches at h
      split at h
      · rename_i q0 qs0 hq0 hqs0
        injection h with h
        subst h
        rcases List.mem_cons.mp hq with rfl | hq'
        · exact ⟨vu, List.mem_cons_self _ _, hq0⟩
        · obtain ⟨vu', hvu', hvu2⟩ := ih hqs0 hq'
          exact ⟨vu', List.mem_cons_of_mem _ hvu', hvu2⟩
      · exact Option.noConfusion h

theorem pairValsList_mem {pms : List PairMatch} {ps : List (ℚ × ℚ)} {pr : ℚ × ℚ}
    (h : pairValsList pms = some ps) (hpr : pr ∈ ps) :
    ∃ pm ∈ pms, ∃ w lv : ℚ,
      toInchesL pm.w pm.u1 = some w ∧ toInchesL pm.l pm.u2 = some lv ∧
      (pr = (lv, w) ∨ pr = (w, lv)) ∧ pr.1 ≤ pr.2 := by
  induction pms generalizing ps with
  | nil =>
      injection h with h
      subst h
      simp at hpr
  | cons pm rest ih =>
      unfold pairValsList at h
      split at h
      · rename_i w lv hw hlv
        split at h
        · rename_i ps0 hps0
          injection h with h
          subst h
          rcases List.mem_cons.mp hpr with rfl | hpr'
          · refine ⟨pm, List.mem_cons_self _ _, w, lv, hw, hlv, ?_, ?_⟩
            · split
              · exact Or.inl rfl
              · exact Or.inr rfl
            · split
              · rename_i hlt
                exact le_of_lt ((qLt_iff _ _).mp hlt)
              · rename_i hnlt
                exact le_of_not_lt (fun hc => hnlt ((qLt_iff _ _).mpr hc))
          · obtain ⟨pm', hpm', rest'⟩ := ih hps0 hpr'
            exact ⟨pm', List.mem_cons_of_mem _ hpm', rest'⟩
        · exact Option.noConfusion h
      · exact Option.noConfusion h

theorem fallbackTry_nonneg {labelM : List Char → Option (List Char)} {cur : Option ℚ}
    {line : List Char} (hcur : ∀ q, cur = some q → 0 ≤ q) :
    ∀ q, fallbackTry labelM cur line = some q → 0 ≤ q := by
  intro q hq
  unfold fallbackTry at hq
  split at hq
  · rename_i q0
    injection hq with hq
    subst hq
    exact hcur q0 rfl
  · split at hq
    · rename_i vu hvu
      have hhd : (scanAll (matchSimpleAt labelM) line.length none line).head? = some vu := by
        unfold searchSimple at hvu
        exact hvu
      have hmem : vu ∈ scanAll (matchSimpleAt labelM) line.length none line :=
        List.mem_of_mem_head? (Option.mem_def.mpr hhd)
      have hnd : ∀ c ∈ vu.1, c ≠ '-' := by
        refine scanAll_property (fun vu' => ∀ c ∈ vu'.1, c ≠ '-') _ ?_ _ _ _ _ hmem
        intro cs' a c' r' hat
        exact matchSimpleAt_no_dash hat
      exact toInchesL_nonneg hnd hq
    · exact Option.noConfusion hq

theorem fallbackLoop_nonneg :
    ∀ (lines : List (List Char)) (p2p len : Option ℚ),
      (∀ q, p2p = some q → 0 ≤ q) → (∀ q, len = some q → 0 ≤ q) →
      (∀ q, (fallbackLoop lines p2p len).1 = some q → 0 ≤ q) ∧
      (∀ q, (fallbackLoop lines p2p len).2 = some q → 0 ≤ q) := by
  intro lines
  induction lines with
  | nil =>
      intro p2p len h1 h2
      exact ⟨h1, h2⟩
  | cons line rest ih =>
      intro p2p len h1 h2
      unfold fallbackLoop
      dsimp only
      split
      · exact ⟨fallbackTry_nonneg h1, fallbackTry_nonneg h2⟩
      · exact ih _ _ (fallbackTry_nonneg h1) (fallbackTry_nonneg h2)

theorem fallbackTry_some (labelM : List Char → Option (List Char)) (q : ℚ)
    (line : List Char) : fallbackTry labelM (some q) line = some q := rfl

theorem fallbackLoop_preserves_p2p :
    ∀ (lines : List (List Char)) (q : ℚ) (len : Option ℚ),
      (fallbackLoop lines (some q) len).1 = some q := by
  intro lines
  induction lines with
  | nil => intro q len; rfl
  | cons line rest ih =>
      intro q len
      unfold fallbackLoop
      dsimp only
      rw [fallbackTry_some]
      split
      · rfl
      · exact ih q _

theorem fallbackLoop_preserves_len :
    ∀ (lines : List (List Char)) (p2p : Option ℚ) (q : ℚ),
      (fallbackLoop lines p2p (some q)).2 = some q := by
  intro lines
  induction lines with
  | nil => intro p2p q; rfl
  | cons line rest ih =>
      intro p2p q
      unfold fallbackLoop
      dsimp only
      rw [fallbackTry_some]
      split
      · rfl
      · exact ih _ q

/-! ### Claim C2: extract_tops totality -/
/-- C2 counterexample: the claim says `extract` never raises for any input.
It does: in "chest 1 1/0" the labeled scan captures the mixed-fraction
candidate "1 1/0", whose `Fraction("1/0")` raises ZeroDivisionError, and the
labeled-scan comprehension has no try/except — the whole extraction aborts
(`none` models the uncaught exception). -/
theorem c2_extract_raises_on_zero_denominator :
    extract_tops "chest 1 1/0" = none := by decide

/-- C2 (amended): whenever `extract_tops` returns, each field of the pair is
either a finite non-negative number or absent; a numeric parse failure is
treated as not-found only in the line-by-line fallback (last conjunct: the
same bad fraction out of the labeled scan's 10-character reach is caught
there and downgraded to absent), while a failure in the labeled or pair scan
aborts the extraction, as in the counterexample. -/
theorem c2_extract_fields_nonneg (text : String) (p len : Option ℚ)
    (h : extract_tops text = some (p, len)) :
    ((∀ q, p = some q → 0 ≤ q) ∧ (∀ q, len = some q → 0 ≤ q)) ∧
    extract_tops "chest measurement xyz 1 1/0" = some (none, none) := by
  refine ⟨?_, by decide⟩
  have hlabAll : ∀ (labelM : List Char → Option (List Char)) (qs : List ℚ),
      mapToInches (labeledMatches labelM (normalizeText text)) = some qs →
      ∀ q ∈ qs, 0 ≤ q := by
    intro labelM qs hqs q hq
    obtain ⟨vu, hvu, hvuq⟩ := mapToInches_mem hqs hq
    have hnd : ∀ c ∈ vu.1, c ≠ '-' := by
      refine scanAll_property (fun vu' => ∀ c ∈ vu'.1, c ≠ '-') _ ?_ _ _ _ _ hvu
      intro cs' a c' r' hat
      exact matchLabeledAt_no_dash hat
    exact toInchesL_nonneg hnd hvuq
  have hpairAll : ∀ ps : List (ℚ × ℚ),
      pairValsList (pairMatches (normalizeText text)) = some ps →
      ∀ pr ∈ ps, 0 ≤ pr.1 ∧ 0 ≤ pr.2 := by
    intro ps hps pr hpr
    obtain ⟨pm, hpm, w, lv, hw, hlv, hpr', hle⟩ := pairValsList_mem hps hpr
    have hnd : (∀ c ∈ pm.w, c ≠ '-') ∧ (∀ c ∈ pm.l, c ≠ '-') := by
      refine scanAll_property
        (fun pm' => (∀ c ∈ pm'.w, c ≠ '-') ∧ (∀ c ∈ pm'.l, c ≠ '-')) _ ?_ _ _ _ _ hpm
      intro cs' a c' r' hat
      exact matchPairAt_no_dash hat
    have hw0 := toInchesL_nonneg hnd.1 hw
    have hl0 := toInchesL_nonneg hnd.2 hlv
    rcases hpr' with rfl | rfl
    · exact ⟨hl0, hw0⟩
    · exact ⟨hw0, hl0⟩
  unfold extract_tops at h
  dsimp only at h
  split at h
  · rename_i p2pVals0 lenVals0 pairs h1 h2 h3
    have hP : ∀ q, (p2pVals0 ++ pairs.map Prod.fst).head? = some q → 0 ≤ q := by
      intro q hq
      have hmem := List.mem_of_mem_head? (Option.mem_def.mpr hq)
      rw [List.mem_append] at hmem
      rcases hmem with hm | hm
      · exact hlabAll _ _ h1 q hm
      · obtain ⟨pr, hpr, rfl⟩ := List.mem_map.mp hm
        exact (hpairAll _ h3 pr hpr).1
    have hL : ∀ q, (lenVals0 ++ pairs.map Prod.snd).head? = some q → 0 ≤ q := by
      intro q hq
      have hmem := List.mem_of_mem_head? (Option.mem_def.mpr hq)
      rw [List.mem_append] at hmem
      rcases hmem with hm | hm
      · exact hlabAll _ _ h2 q hm
      · obtain ⟨pr, hpr, rfl⟩ := List.mem_map.mp hm
        exact (hpairAll _ h3 pr hpr).2
    split at h
    · injection h with h
      have hfb := fallbackLoop_nonneg (splitLines (normalizeText text)) _ _ hP hL
      constructor
      · intro q hq
        exact hfb.1 q (by rw [h]; exact hq)
      · intro q hq
        exact hfb.2 q (by rw [h]; exact hq)
    · injection h with h
      obtain ⟨hp, hl⟩ := Prod.mk.injEq _ _ _ _ ▸ h
      subst hp
      subst hl
      exact ⟨hP, hL⟩
  · exact Option.noConfusion h

/-- C2 witness: "chest 20" extracts to `(some 20, none)` and both fields are
non-negative-or-absent. -/
theorem c2_witness :
    extract_tops "chest 20" = some (some 20, none) ∧
    (∀ q, (some (20 : ℚ) : Option ℚ) = some q → 0 ≤ q) ∧
    (∀ q, (none : Option ℚ) = some q → 0 ≤ q) :=
  ⟨by decide,
    (c2_extract_fields_nonneg "chest 20" (some 20) none (by decide)).1.1,
    (c2_extract_fields_nonneg "chest 20" (some 20) none (by decide)).1.2⟩

/-! ### Claim C7: the W×L pair strategy -/
/-- C7: the pair strategy assigns the smaller converted value to p2p and the
larger to length regardless of the side of the `x` (`24x31` and `31x24` both
yield `(24, 31)`; every pair candidate is ordered), and a pair candidate
never overrides a labeled-scan value of either dimension: whenever the
labeled p2p (resp. length) scan produced a first value `v`, the returned p2p
(resp. length) is `v`. -/
theorem c7_pair_ordering_never_overrides :
    extract_tops "24x31" = some (some 24, some 31) ∧
    extract_tops "31x24" = some (some 24, some 31) ∧
    (∀ (t : List Char) (ps : List (ℚ × ℚ)),
      pairValsList (pairMatches t) = some ps → ∀ pr ∈ ps, pr.1 ≤ pr.2) ∧
    (∀ (s : String) (p len : Option ℚ) (v : ℚ) (vs : List ℚ),
      extract_tops s = some (p, len) →
      mapToInches (labeledMatches matchP2PLabel (normalizeText s)) = some (v :: vs) →
      p = some v) ∧
    (∀ (s : String) (p len : Option ℚ) (v : ℚ) (vs : List ℚ),
      extract_tops s = some (p, len) →
      mapToInches (labeledMatches matchLenLabel (normalizeText s)) = some (v :: vs) →
      len = some v) := by
  refine ⟨by decide, by decide, ?_, ?_, ?_⟩
  · intro t ps hps pr hpr
    obtain ⟨pm, hpm, w, lv, hw, hlv, hpr', hle⟩ := pairValsList_mem hps hpr
    exact hle
  · intro s p len v vs hx hlab
    unfold extract_tops at hx
    dsimp only at hx
    split at hx
    · rename_i p2pVals0 lenVals0 pairs h1 h2 h3
      have hvals : p2pVals0 = v :: vs := by
        rw [h1] at hlab
        injection hlab
      subst hvals
      have hhead : ((v :: vs) ++ pairs.map Prod.fst).head? = some v := by simp
      split at hx
      · injection hx with hx
        rw [hhead] at hx
        calc p = (fallbackLoop (splitLines (normalizeText s)) (some v)
                  ((lenVals0 ++ pairs.map Prod.snd).head?)).1 :=
              (congrArg Prod.fst hx).symm
          _ = some v := fallbackLoop_preserves_p2p _ v _
      · injection hx with hx
        obtain ⟨hp, hl⟩ := Prod.mk.injEq _ _ _ _ ▸ hx
        rw [← hp, hhead]
    · exact Option.noConfusion hx
  · intro s p len v vs hx hlab
    unfold extract_tops at hx
    dsimp only at hx
    split at hx
    · rename_i p2pVals0 lenVals0 pairs h1 h2 h3
      have hvals : lenVals0 = v :: vs := by
        rw [h2] at hlab
        injection hlab
      subst hvals
      have hhead : ((v :: vs) ++ pairs.map Prod.snd).head? = some v := by simp
      split at hx
      · injection hx with hx
        rw [hhead] at hx
        calc len = (fallbackLoop (splitLines (normalizeText s))
                  ((p2pVals0 ++ pairs.map Prod.fst).head?) (some v)).2 :=
              (congrArg Prod.snd hx).symm
          _ = some v := fallbackLoop_preserves_len _ _ v
      · injection hx with hx
        obtain ⟨hp, hl⟩ := Prod.mk.injEq _ _ _ _ ▸ hx
        rw [← hl, hhead]
    · exact Option.noConfusion hx

/-- C7 witness: in "chest 19, 24x31" the labeled p2p scan finds 19 first and
the pair candidate (24, 31) — ordered smaller-first — does not override it;
dually, in "length 30, 24x31" the labeled length value 30 survives the pair
candidate's 31. -/
theorem c7_witness :
    (extract_tops "chest 19, 24x31" = some (some 19, some 31) ∧
      mapToInches (labeledMatches matchP2PLabel (normalizeText "chest 19, 24x31")) =
        some [(19 : ℚ)] ∧
      (some (19 : ℚ) : Option ℚ) = some 19) ∧
    (extract_tops "length 30, 24x31" = some (some 24, some 30) ∧
      mapToInches (labeledMatches matchLenLabel (normalizeText "length 30, 24x31")) =
        some [(30 : ℚ)] ∧
      (some (30 : ℚ) : Option ℚ) = some 30) :=
  ⟨⟨by decide, by decide,
    c7_pair_ordering_never_overrides.2.2.2.1 "chest 19, 24x31" (some 19) (some 31) 19 []
      (by decide) (by decide)⟩,
   ⟨by decide, by decide,
    c7_pair_ordering_never_overrides.2.2.2.2 "length 30, 24x31" (some 24) (some 30) 30 []
      (by decide) (by decide)⟩⟩
